import Mathlib

/-!
Verification development for the expressly edge-router dispatch core
(src/src/lib/routing/router.ts, src/src/lib/response.ts).

The data model and operations below are a shallow embedding of the
TypeScript source.  JavaScript mutation is rendered as explicit state
passing; thrown exceptions are rendered as an `Option EError` component
threaded through each runner; `await` points are irrelevant to the
single-dispatch semantics and disappear.  External collaborators that
the spec declares out of scope (the path-to-regexp compiler, the cookie
serializer) enter as explicit function parameters or as already-produced
strings.  Classes of this repository that are not under src/
(`EResponse`, the error classes in errors.ts) are modelled from the
spec; each such definition carries a doc comment saying so.
-/

set_option autoImplicit false

namespace Expressly

/-! ## Fetch-style header multimap

`Headers` from the web platform: a multimap of name/value pairs with
case-insensitive names.  `set` replaces the first entry with the name and
drops the others, `append` adds an entry at the end, `delete` removes all
entries with the name, and `get` joins all values for the name with
a comma and a space.  Names are kept as given and every operation
compares names case-insensitively, which is observably the same as the
platform's normalize-on-insert behaviour. -/

/-- A header multimap in insertion order. -/
abbrev HeaderList := List (String × String)

/-- ASCII lowercasing (JS String.prototype.toLowerCase on the ASCII
range relevant to header names and origins), defined over the character
list so that it evaluates inside the kernel. -/
def lowerStr (s : String) : String := ⟨s.data.map Char.toLower⟩

/-- ASCII uppercasing (JS String.prototype.toUpperCase), likewise
kernel-evaluable. -/
def upperStr (s : String) : String := ⟨s.data.map Char.toUpper⟩

/-- Headers.set: replace the first entry whose name matches
case-insensitively, dropping any further entries with that name; append
if no entry matches. -/
def hset : HeaderList → String → String → HeaderList
  | [], name, value => [(name, value)]
  | (k, v) :: rest, name, value =>
    if lowerStr k = lowerStr name then
      (k, value) :: rest.filter (fun e => lowerStr e.1 != lowerStr name)
    else
      (k, v) :: hset rest name value

/-- Headers.append: add an entry at the end. -/
def happend (hs : HeaderList) (name value : String) : HeaderList :=
  hs ++ [(name, value)]

/-- Headers.delete: remove all entries whose name matches case-insensitively. -/
def hdelete (hs : HeaderList) (name : String) : HeaderList :=
  hs.filter (fun e => lowerStr e.1 != lowerStr name)

/-- Headers.has: does some entry's name match case-insensitively? -/
def hhas (hs : HeaderList) (name : String) : Bool :=
  hs.any (fun e => lowerStr e.1 == lowerStr name)

/-- Headers.get: the values of all matching entries joined with a comma
and a space, or none when no entry matches. -/
def hget (hs : HeaderList) (name : String) : Option String :=
  match (hs.filter (fun e => lowerStr e.1 == lowerStr name)).map Prod.snd with
  | [] => none
  | vs => some (String.intercalate ", " vs)

/-! ## Configuration (src/unnamed/part_000) -/

/-- CORS preflight options: the list of trusted origins. -/
structure AutoCorsPreflightOptions where
  trustedOrigins : List String
deriving DecidableEq

/-- Router configuration. -/
structure EConfig where
  parseCookie : Bool
  auto405 : Bool
  extractRequestParameters : Bool
  autoContentType : Bool
  autoCorsPreflight : Option AutoCorsPreflightOptions
deriving DecidableEq

/-- The Router class field default configuration. -/
def defaultConfig : EConfig :=
  { parseCookie := true
    auto405 := true
    extractRequestParameters := true
    autoContentType := false
    autoCorsPreflight := none }

/-! ## Requests

The request wrapper exposes the method, the decoded pathname of the URL
object, the request headers, and a mutable params slot (spec section 6). -/

/-- The request wrapper (ERequest). -/
structure ERequest where
  method : String
  pathname : String
  headers : HeaderList
  params : List (String × String)
deriving DecidableEq

/-! ## Errors (src/src/lib/routing/errors.ts is not under src/)

Modelled from the spec: the taxonomy of section 7 — `NotFound` (no route
matched the path), `MethodNotAllowed(allowedMethods)` (path matched,
method did not; `runRequestHandlers` constructs it from the accumulated
list of allowed-method lists), and `HandlerError` (any callback threw),
carrying the message the default handler reports. -/

/-- The error taxonomy funneled into the error-handler chain. -/
inductive EError where
  | notFound
  | methodNotAllowed (allowedMethods : List (List String))
  | handlerError (message : String)
deriving DecidableEq

/-- Modelled from the spec: `ErrorMethodNotAllowed.allow`, the
comma-joined allowed methods placed into the `Allow` header (errors.ts
is not under src/).  On the other two variants it is the empty string. -/
def EError.allow : EError → String
  | .methodNotAllowed ams => String.intercalate "," (ams.map (String.intercalate ","))
  | _ => ""

/-! ## Response builder

`EResponse` (imported by router.ts from ./response) is not under src/;
src/src/lib/response.ts holds the sibling builder `FPResponse`, whose
cookie tracking (`FPResponse.cookie`, a name-to-serialized-string map in
insertion order) is embedded here.  The remaining state and methods are
modelled from the spec, section 3: status with 0 as the unset sentinel,
a header multimap, a cookies map, an optional body, and the `ended` flag
that becomes true once a handler has produced a definitive response. -/

/-- JS `Map.set` on an insertion-ordered association list: update the
existing entry in place, else append. -/
def mapSet (m : List (String × String)) (k v : String) : List (String × String) :=
  if m.any (fun e => e.1 == k) then
    m.map (fun e => if e.1 == k then (k, v) else e)
  else
    m ++ [(k, v)]

/-- The response builder state. -/
structure EResponse where
  status : Nat
  headers : HeaderList
  cookies : List (String × String)
  body : Option String
  ended : Bool
deriving DecidableEq

/-- A fresh response builder, as built at the start of each dispatch. -/
def EResponse.init : EResponse :=
  { status := 0, headers := [], cookies := [], body := none, ended := false }

/-- JS truthiness of the builder body: absent or the empty string is
falsy, everything else truthy. -/
def bodyTruthy : Option String → Bool
  | none => false
  | some s => s != ""

/-- Modelled from the spec: `EResponse.sendStatus` produces a definitive
response with the given status, setting the ended flag. -/
def EResponse.sendStatus (res : EResponse) (n : Nat) : EResponse :=
  { res with status := n, ended := true }

/-- Modelled from the spec: `EResponse.withStatus` records the status
and returns the builder for chaining. -/
def EResponse.withStatus (res : EResponse) (n : Nat) : EResponse :=
  { res with status := n }

/-- Set a header on the builder (Headers.set semantics). -/
def EResponse.headersSet (res : EResponse) (name value : String) : EResponse :=
  { res with headers := hset res.headers name value }

/-- Modelled from the spec (shape as in FPResponse.json): set the
Content-Type header to application/json and store the already-stringified
payload as the body. -/
def EResponse.json (res : EResponse) (s : String) : EResponse :=
  { res.headersSet "Content-Type" "application/json" with body := some s }

/-- FPResponse.cookie: track a cookie under its name; the value stands
for the externally serialized cookie string (cookie.serialize is
delegated to a library the spec puts out of scope). -/
def EResponse.cookie (res : EResponse) (k serialized : String) : EResponse :=
  { res with cookies := mapSet res.cookies k serialized }

/-- FPResponse.setDefaults (src/src/lib/response.ts): fill a 404
"Not Found" response when neither status nor body was set, else default
the status to 200.  The router's serializer does not call it. -/
def EResponse.setDefaults (res : EResponse) : EResponse :=
  if res.status = 0 then
    if res.body = none then { res with status := 404, body := some "Not Found" }
    else { res with status := 200 }
  else res

/-- JSON escaping of one character: backslash and quote get escaped,
everything else passes through (the escapes of JSON.stringify relevant
here). -/
def escChar (c : Char) : List Char :=
  if c = '\\' then ['\\', '\\'] else if c = '"' then ['\\', '"'] else [c]

/-- JSON string escaping for the default error handler's body, defined
over the character list so that it evaluates inside the kernel. -/
def jsonEscape (s : String) : String :=
  ⟨(s.data.map escChar).flatten⟩

/-- The body JSON.stringify({ error: message }) produced by the default
error handler. -/
def errorJson (msg : String) : String :=
  "\x7b\"error\":\"" ++ jsonEscape msg ++ "\"\x7d"

/-! ## Match results and handlers

routeMatcher returns 405-as-the-methods-array, 404, or 0; rendered as a
three-case tagged variant whose `methods` case keeps the raw array so
that the runner's JS truthiness test on `checkResult.length` is kept
faithfully. -/

/-- The result of a handler's check: 0 (matched), 404 (route not
found), or the route's methods array (method mismatch). -/
inductive CheckResult where
  | matched
  | notFound
  | methods (ms : List String)
deriving DecidableEq

/-- A request-handler callback: may mutate the request and the response
and may throw (the `Option EError` component). -/
abbrev RHCallback := ERequest → EResponse → ERequest × EResponse × Option EError

/-- An error-middleware callback: receives the error as well. -/
abbrev EMCallback := EError → ERequest → EResponse → ERequest × EResponse × Option EError

/-- A request handler: a check predicate (which may attach params to the
request) paired with a callback. -/
structure RequestHandler where
  check : ERequest → CheckResult × ERequest
  callback : RHCallback

/-- An error middleware: a check predicate paired with a three-argument
callback. -/
structure ErrorMiddleware where
  check : ERequest → CheckResult × ERequest
  callback : EMCallback

/-- Whether some allowed method is the wildcard or equals the request
method (`methods.some(m => m === "*" || m === req.method)`). -/
def methodAllowedFor (methods : List String) (method : String) : Bool :=
  methods.any (fun m => m == "*" || m == method)

/-- Router.routeMatcher.  `matchPath` stands for the cached
path-to-regexp matcher: pattern, then decoded pathname, to the matched
path text and the extracted params, or none.  The source tests the
returned `path` for JS truthiness, so a match whose path text is the
empty string also falls through to 404. -/
def routeMatcher (cfg : EConfig)
    (matchPath : String → String → Option (String × List (String × String)))
    (methods : List String) (pattern : String) : ERequest → CheckResult × ERequest :=
  fun req =>
    let methodAllowed := methodAllowedFor methods req.method
    if pattern = "*" ∨ pattern = "(.*)" then
      ((if methodAllowed then .matched else .methods methods), req)
    else
      match matchPath pattern req.pathname with
      | some (path, params) =>
        if path ≠ "" then
          let req' := if cfg.extractRequestParameters then { req with params := params } else req
          ((if methodAllowed then .matched else .methods methods), req')
        else (.notFound, req)
      | none => (.notFound, req)

/-- The defaultErrorHandler closure of router.ts: NotFound, or
MethodNotAllowed with auto405 disabled, responds 404; MethodNotAllowed
with auto405 enabled sets the Allow header and responds 405; anything
else is logged (unmodelled observable) and answered 500 with a JSON
error body. -/
def defaultErrorHandler (auto405 : Bool) : EMCallback :=
  fun err req res =>
    match err with
    | .notFound => (req, res.sendStatus 404, none)
    | .methodNotAllowed _ =>
      if !auto405 then (req, res.sendStatus 404, none)
      else (req, (res.headersSet "Allow" err.allow).sendStatus 405, none)
    | .handlerError msg => (req, (res.withStatus 500).json (errorJson msg), none)

/-- The preflightHandler closure of router.ts. -/
def preflightHandler (opts : AutoCorsPreflightOptions) : RHCallback :=
  fun req res =>
    if opts.trustedOrigins.length = 0 then (req, res.sendStatus 403, none)
    else
      let originHeaderValue : Option String :=
        if opts.trustedOrigins.length = 1 ∧ opts.trustedOrigins.head? = some "*" then
          some "*"
        else
          match hget req.headers "origin" with
          | some o =>
            let origin := lowerStr o
            if opts.trustedOrigins.any (fun t => lowerStr t == origin) then some origin
            else none
          | none => none
      match originHeaderValue with
      | none => (req, res.sendStatus 403, none)
      | some v =>
        if v = "" then (req, res.sendStatus 403, none)
        else
          let res :=
            match hget req.headers "access-control-request-method" with
            | some m => res.headersSet "access-control-allow-methods" m
            | none => res
          let res :=
            match hget req.headers "access-control-request-headers" with
            | some h => res.headersSet "access-control-allow-headers" h
            | none => res
          let res := res.headersSet "access-control-allow-origin" v
          (req, res.sendStatus 200, none)

/-! ## Request-handler chain execution (Router.runRequestHandlers)

The loop state carries the mutable locals of the source function: the
request and response objects, the `allowedMethods` accumulator, the
`checkResult` variable (which starts out unassigned), and the pending
exception, if a callback threw. -/

/-- The state of the request-handler loop. -/
structure LoopState where
  req : ERequest
  res : EResponse
  allowedMethods : List (List String)
  checkResult : Option CheckResult
  err : Option EError
deriving DecidableEq

/-- The `for (let a of this.requestHandlers)` loop of
Router.runRequestHandlers: break once the response has ended; on a
matched check run the callback (stopping the loop if it throws); on a
method mismatch push the non-empty methods array onto `allowedMethods`
(the source tests `checkResult.length` for truthiness); on 404 just
record the check result and continue. -/
def runLoop : List RequestHandler → LoopState → LoopState
  | [], s => s
  | a :: rest, s =>
    if s.res.ended then s
    else
      match a.check s.req with
      | (CheckResult.matched, req') =>
        match a.callback req' s.res with
        | (req'', res', some e) =>
          { req := req'', res := res', allowedMethods := s.allowedMethods,
            checkResult := some CheckResult.matched, err := some e }
        | (req'', res', none) =>
          runLoop rest
            { req := req'', res := res', allowedMethods := s.allowedMethods,
              checkResult := some CheckResult.matched, err := none }
      | (CheckResult.notFound, req') =>
        runLoop rest { s with req := req', checkResult := some CheckResult.notFound }
      | (CheckResult.methods ms, req') =>
        if ms.length ≠ 0 then
          runLoop rest
            { s with
              req := req'
              allowedMethods := s.allowedMethods ++ [ms]
              checkResult := some (CheckResult.methods ms) }
        else
          runLoop rest { s with req := req', checkResult := some (CheckResult.methods ms) }

/-- Router.runRequestHandlers: run the loop from a fresh state; if a
callback threw, that error stands; else if any allowed methods were
accumulated, fail with MethodNotAllowed carrying them; else if the last
evaluated check result is 404, fail with NotFound. -/
def runRequestHandlers (hs : List RequestHandler) (req : ERequest) (res : EResponse) :
    LoopState :=
  let s := runLoop hs { req := req, res := res, allowedMethods := [], checkResult := none, err := none }
  match s.err with
  | some _ => s
  | none =>
    if s.allowedMethods.length ≠ 0 then
      { s with err := some (EError.methodNotAllowed s.allowedMethods) }
    else if s.checkResult = some CheckResult.notFound then
      { s with err := some EError.notFound }
    else s

/-- Router.runErrorHandlers: iterate error middleware, breaking once the
response has ended; run each middleware whose check returns 0, stopping
with the error if its callback throws. -/
def runErrorHandlers : List ErrorMiddleware → EError → ERequest → EResponse →
    ERequest × EResponse × Option EError
  | [], _, req, res => (req, res, none)
  | eH :: rest, err, req, res =>
    if res.ended then (req, res, none)
    else
      match eH.check req with
      | (CheckResult.matched, req') =>
        match eH.callback err req' res with
        | (req'', res', some e) => (req'', res', some e)
        | (req'', res', none) => runErrorHandlers rest err req'' res'
      | (_, req') => runErrorHandlers rest err req' res

/-! ## Response serialization (Router.serializeResponse) -/

/-- The wire-level response: status, the final header multimap, body. -/
structure WireResponse where
  status : Nat
  headers : HeaderList
  body : Option String
deriving DecidableEq

/-- Router.serializeResponse: status defaults to 200 with a truthy body
and 204 otherwise when the builder status is still the sentinel 0; when
at least one cookie is tracked, all Set-Cookie entries of the generic
header map are deleted and one Set-Cookie entry is appended per tracked
cookie in insertion order. -/
def serializeResponse (res : EResponse) : WireResponse :=
  let status := if res.status ≠ 0 then res.status else if bodyTruthy res.body then 200 else 204
  let hdrs :=
    if res.cookies.length ≠ 0 then
      res.cookies.foldl (fun h c => happend h "Set-Cookie" c.2) (hdelete res.headers "Set-Cookie")
    else res.headers
  { status := status, headers := hdrs, body := res.body }

/-! ## The Router -/

/-- The Router's persistent state: the two handler chains and the
configuration. -/
structure Router where
  requestHandlers : List RequestHandler
  errorHandlers : List ErrorMiddleware
  config : EConfig

/-- The argument of Router.use: the source discriminates a two-argument
request callback from a three-argument error callback by arity; the
shallow embedding discriminates by tag. -/
inductive UseArg where
  | reqCb (cb : RHCallback)
  | errCb (cb : EMCallback)

/-- The matcher `() => 0` that Router.use installs when called with a
bare callback. -/
def alwaysMatch : ERequest → CheckResult × ERequest := fun req => (.matched, req)

/-- Router.use with a bare callback: push onto the error-handler list
when the callback takes three arguments, else onto the request-handler
list. -/
def Router.use (r : Router) (arg : UseArg) : Router :=
  match arg with
  | .errCb cb => { r with errorHandlers := r.errorHandlers ++ [⟨alwaysMatch, cb⟩] }
  | .reqCb cb => { r with requestHandlers := r.requestHandlers ++ [⟨alwaysMatch, cb⟩] }

/-- Router.use with a path string: same, but the matcher is
routeMatcher(["*"], path). -/
def Router.usePath (r : Router)
    (matchPath : String → String → Option (String × List (String × String)))
    (path : String) (arg : UseArg) : Router :=
  match arg with
  | .errCb cb =>
    { r with errorHandlers := r.errorHandlers ++ [⟨routeMatcher r.config matchPath ["*"] path, cb⟩] }
  | .reqCb cb =>
    { r with requestHandlers := r.requestHandlers ++ [⟨routeMatcher r.config matchPath ["*"] path, cb⟩] }

/-- Router.route: push a request handler whose matcher uppercases the
given methods. -/
def Router.route (r : Router)
    (matchPath : String → String → Option (String × List (String × String)))
    (methods : List String) (pattern : String) (cb : RHCallback) : Router :=
  { r with requestHandlers :=
      r.requestHandlers ++ [⟨routeMatcher r.config matchPath (methods.map upperStr) pattern, cb⟩] }

/-- The error middleware that Router.handler appends on every failing
dispatch: the default error handler behind the always-matching
`() => 0` matcher. -/
def defaultErrMW (auto405 : Bool) : ErrorMiddleware :=
  ⟨alwaysMatch, defaultErrorHandler auto405⟩

/-- Router.handler: one dispatch.  Build a fresh response, run the
request-handler chain; on failure append the default error handler (a
persistent mutation of the Router, returned updated) and run the
error-handler chain; serialize the accumulated response, unless an
error middleware itself threw, which rejects the dispatch. -/
def Router.handler (r : Router) (req : ERequest) : Router × Except EError WireResponse :=
  let s := runRequestHandlers r.requestHandlers req EResponse.init
  match s.err with
  | none => (r, .ok (serializeResponse s.res))
  | some err =>
    let r' := r.use (.errCb (defaultErrorHandler r.config.auto405))
    match runErrorHandlers r'.errorHandlers err s.req s.res with
    | (_, res', none) => (r', .ok (serializeResponse res'))
    | (_, _, some e) => (r', .error e)

/-- A sequence of dispatches against the same Router instance,
threading the Router's persistent state. -/
def Router.dispatchAll : Router → List ERequest → Router
  | r, [] => r
  | r, q :: qs => Router.dispatchAll (r.handler q).1 qs

/-! ## Auxiliary lemmas -/

/-- Joining a single string is that string. -/
theorem intercalate_singleton (sep v : String) : String.intercalate sep [v] = v := rfl

/-- Entries surviving a case-insensitive delete never match the deleted
name afterwards. -/
theorem filter_ne_filter_eq (hs : HeaderList) (n : String) :
    (hs.filter (fun e => lowerStr e.1 != lowerStr n)).filter
      (fun e => lowerStr e.1 == lowerStr n) = [] := by
  induction hs with
  | nil => rfl
  | cons e rest ih =>
    by_cases h : lowerStr e.1 = lowerStr n <;>
      simp [List.filter_cons, h, ih]

/-- Reading back a header just set yields exactly the value set. -/
theorem hget_hset (hs : HeaderList) (n v : String) : hget (hset hs n v) n = some v := by
  induction hs with
  | nil => simp [hset, hget, intercalate_singleton]
  | cons e rest ih =>
    obtain ⟨k, w⟩ := e
    by_cases h : lowerStr k = lowerStr n
    · simp [hset, hget, h, List.filter_cons, List.filter_filter, bne,
        intercalate_singleton]
    · simpa [hset, hget, h, List.filter_cons] using ih

/-- An ended response short-circuits the request-handler loop: the state
is returned untouched and in particular no callback runs. -/
theorem runLoop_ended (hs : List RequestHandler) (s : LoopState) (h : s.res.ended = true) :
    runLoop hs s = s := by
  cases hs <;> simp [runLoop, h]

/-- The request-handler loop processes an appended chain by processing
the first part and, unless a callback threw there, continuing with the
second part from the reached state. -/
theorem runLoop_append (xs ys : List RequestHandler) (s : LoopState) (h : s.err = none) :
    runLoop (xs ++ ys) s =
      if (runLoop xs s).err = none then runLoop ys (runLoop xs s) else runLoop xs s := by
  induction xs generalizing s with
  | nil => simp [runLoop, h]
  | cons a xs ih =>
    cases hE : s.res.ended with
    | true =>
      rw [show (a :: xs) ++ ys = a :: (xs ++ ys) from rfl,
        runLoop_ended (a :: (xs ++ ys)) s hE, runLoop_ended (a :: xs) s hE, h,
        runLoop_ended ys s hE]
      simp
    | false =>
      simp only [List.cons_append, runLoop, hE, Bool.false_eq_true, if_false]
      rcases h1 : a.check s.req with ⟨cr, req'⟩
      cases cr with
      | matched =>
        rcases h2 : a.callback req' s.res with ⟨req'', res', e?⟩
        cases e? with
        | some e => simp [h1, h2]
        | none => simp only [h1, h2]; exact ih _ rfl
      | notFound => simp only [h1]; exact ih _ h
      | methods ms =>
        by_cases hm : ms.length ≠ 0
        · simp only [h1, if_pos hm]; exact ih _ h
        · simp only [h1, if_neg hm]; exact ih _ h

/-- The allowed-methods accumulator only ever grows. -/
theorem runLoop_acc_extend (hs : List RequestHandler) (s : LoopState) :
    ∃ t, (runLoop hs s).allowedMethods = s.allowedMethods ++ t := by
  induction hs generalizing s with
  | nil => exact ⟨[], by simp [runLoop]⟩
  | cons a hs ih =>
    cases hE : s.res.ended with
    | true => exact ⟨[], by simp [runLoop_ended _ _ hE]⟩
    | false =>
      simp only [runLoop, hE, Bool.false_eq_true, if_false]
      rcases h1 : a.check s.req with ⟨cr, req'⟩
      cases cr with
      | matched =>
        rcases h2 : a.callback req' s.res with ⟨req'', res', e?⟩
        cases e? with
        | some e => exact ⟨[], by simp [h1, h2]⟩
        | none => simp only [h1, h2]; exact ih _
      | notFound => simp only [h1]; exact ih _
      | methods ms =>
        by_cases hm : ms.length ≠ 0
        · obtain ⟨t, ht⟩ :=
            ih { s with
                  req := req'
                  allowedMethods := s.allowedMethods ++ [ms]
                  checkResult := some (CheckResult.methods ms) }
          refine ⟨ms :: t, ?_⟩
          simp only [h1, if_pos hm]; rw [ht]; simp
        · simp only [h1, if_neg hm]; exact ih _

/-- An ended response short-circuits the error-handler loop likewise. -/
theorem runErrorHandlers_ended (hs : List ErrorMiddleware) (err : EError)
    (req : ERequest) (res : EResponse) (h : res.ended = true) :
    runErrorHandlers hs err req res = (req, res, none) := by
  cases hs <;> simp [runErrorHandlers, h]

/-- The error-handler loop processes an appended chain by processing the
first part and, unless a middleware threw there, continuing with the
second part from the reached state. -/
theorem runErrorHandlers_append (xs ys : List ErrorMiddleware) (err : EError)
    (req : ERequest) (res : EResponse) :
    runErrorHandlers (xs ++ ys) err req res =
      (match runErrorHandlers xs err req res with
        | (req', res', none) => runErrorHandlers ys err req' res'
        | t => t) := by
  induction xs generalizing req res with
  | nil => simp [runErrorHandlers]
  | cons eH xs ih =>
    cases hE : res.ended with
    | true =>
      rw [show (eH :: xs) ++ ys = eH :: (xs ++ ys) from rfl,
        runErrorHandlers_ended (eH :: (xs ++ ys)) err req res hE,
        runErrorHandlers_ended (eH :: xs) err req res hE]
      simp [runErrorHandlers_ended ys err req res hE]
    | false =>
      simp only [List.cons_append, runErrorHandlers, hE, Bool.false_eq_true, if_false]
      rcases h1 : eH.check req with ⟨cr, req'⟩
      cases cr with
      | matched =>
        rcases h2 : eH.callback err req' res with ⟨req'', res', e?⟩
        cases e? with
        | some e => simp [h1, h2]
        | none => simp only [h1, h2]; exact ih _ _
      | notFound => simp only [h1]; exact ih _ _
      | methods ms => simp only [h1]; exact ih _ _

/-- A nonempty accumulator stays nonempty through the loop. -/
theorem runLoop_acc_ne_nil (hs : List RequestHandler) (s : LoopState)
    (h : s.allowedMethods ≠ []) : (runLoop hs s).allowedMethods ≠ [] := by
  obtain ⟨t, ht⟩ := runLoop_acc_extend hs s
  rw [ht]
  simp [h]

/-- Appending cookie entries via Headers.append, unfolded to a list
append. -/
theorem foldl_happend_setCookie (cs : List (String × String)) (base : HeaderList) :
    cs.foldl (fun h c => happend h "Set-Cookie" c.2) base
      = base ++ cs.map (fun c => (("Set-Cookie" : String), c.2)) := by
  induction cs generalizing base with
  | nil => simp
  | cons c cs ih =>
    rw [List.foldl_cons, ih]
    simp [happend]

/-- Filtering the appended per-cookie entries for Set-Cookie keeps them
all, in order. -/
theorem setCookie_filter_map (cs : List (String × String)) :
    ((cs.map (fun c => (("Set-Cookie" : String), c.2))).filter
        (fun e => lowerStr e.1 == lowerStr "Set-Cookie")).map Prod.snd
      = cs.map Prod.snd := by
  induction cs with
  | nil => rfl
  | cons c cs ih => simp [List.filter_cons, ih]

/-! ## Concrete fixtures for witnesses and counterexamples -/

/-- A sample request. -/
def sampleReq : ERequest := ⟨"GET", "/items/42", [], []⟩

/-- A handler whose check always matches and whose callback changes
nothing (in particular it does not end the response). -/
def hMatchNoEnd : RequestHandler := ⟨fun q => (.matched, q), fun q r => (q, r, none)⟩

/-- A handler whose check always reports 404. -/
def hNotFoundH : RequestHandler := ⟨fun q => (.notFound, q), fun q r => (q, r, none)⟩

/-- A handler whose check always reports a method mismatch allowing PUT. -/
def hMismatchPUT : RequestHandler := ⟨fun q => (.methods ["PUT"], q), fun q r => (q, r, none)⟩

/-- A handler that matches and ends the response with a 200. -/
def hEnd200 : RequestHandler := ⟨fun q => (.matched, q), fun q r => (q, r.sendStatus 200, none)⟩

/-- A handler that matches and records status 999 without ending. -/
def hMark999 : RequestHandler := ⟨fun q => (.matched, q), fun q r => (q, r.withStatus 999, none)⟩

/-- An error middleware that ends the response with a 500. -/
def eEnd500 : ErrorMiddleware := ⟨alwaysMatch, fun _ q r => (q, r.sendStatus 500, none)⟩

/-- An error middleware that records status 999 without ending. -/
def eMark999 : ErrorMiddleware := ⟨alwaysMatch, fun _ q r => (q, r.withStatus 999, none)⟩

/-! ## The claims -/

/-- C7 (amended: with at least one tracked cookie — with zero tracked
cookies the generic Set-Cookie entries are not discarded, see the
counterexample): for every dispatch in which N (at least 1) cookies were
set on the response builder, the serialized wire-level response carries
exactly N Set-Cookie headers, one per tracked cookie in insertion order;
any Set-Cookie entries that reached the generic header multi-map are
discarded before the per-cookie entries are appended. -/
theorem c7_cookie_roundtrip (res : EResponse) (h : res.cookies ≠ []) :
    ((serializeResponse res).headers.filter
        (fun e => lowerStr e.1 == lowerStr "Set-Cookie")).map Prod.snd
      = res.cookies.map Prod.snd
    ∧ ((serializeResponse res).headers.filter
        (fun e => lowerStr e.1 == lowerStr "Set-Cookie")).length
      = res.cookies.length := by
  have hlen : res.cookies.length ≠ 0 := by
    simpa [List.length_eq_zero] using h
  have key : ((serializeResponse res).headers.filter
      (fun e => lowerStr e.1 == lowerStr "Set-Cookie")).map Prod.snd
      = res.cookies.map Prod.snd := by
    simp only [serializeResponse, if_pos hlen]
    rw [foldl_happend_setCookie, List.filter_append, List.map_append, hdelete,
      filter_ne_filter_eq, setCookie_filter_map]
    simp
  refine ⟨key, ?_⟩
  have := congrArg List.length key
  simpa using this

/-- C7 counterexample: with zero tracked cookies, a Set-Cookie entry
that reached the generic header map survives serialization, so the wire
response carries one Set-Cookie header although no cookie was set. -/
theorem c7_counterexample :
    (EResponse.headersSet EResponse.init "Set-Cookie" "sid=1").cookies = []
    ∧ ((serializeResponse (EResponse.headersSet EResponse.init "Set-Cookie" "sid=1")).headers.filter
        (fun e => lowerStr e.1 == lowerStr "Set-Cookie")).length = 1 := by
  exact ⟨by decide, by decide⟩

/-- C7 witness: two cookies tracked (and a generic Set-Cookie entry
present) serialize to exactly those two Set-Cookie headers in insertion
order. -/
theorem c7_cookie_roundtrip_witness :
    (((EResponse.init.headersSet "Set-Cookie" "gone=1").cookie "a" "a=1").cookie "b" "b=2").cookies ≠ []
    ∧ ((serializeResponse (((EResponse.init.headersSet "Set-Cookie" "gone=1").cookie "a" "a=1").cookie "b" "b=2")).headers.filter
        (fun e => lowerStr e.1 == lowerStr "Set-Cookie")).map Prod.snd
      = ["a=1", "b=2"] := by
  refine ⟨by decide, ?_⟩
  have h := (c7_cookie_roundtrip
    (((EResponse.init.headersSet "Set-Cookie" "gone=1").cookie "a" "a=1").cookie "b" "b=2")
    (by decide)).1
  rw [h]
  decide

/-- C8: when the builder status is the unset sentinel 0, the serialized
status is 200 with a (truthy) body present and 204 without one; an
explicitly set status is used unchanged.  Body presence is the source's
JS truthiness test, under which an empty-string body counts as absent. -/
theorem c8_status_defaults (res : EResponse) :
    (res.status = 0 →
      (serializeResponse res).status = if bodyTruthy res.body then 200 else 204)
    ∧ (res.status ≠ 0 → (serializeResponse res).status = res.status) := by
  constructor
  · intro h
    simp [serializeResponse, h]
  · intro h
    simp [serializeResponse, h]

/-- C8 witness: sentinel status with a body gives 200, without a body
gives 204, and an explicit 301 passes through. -/
theorem c8_status_defaults_witness :
    (serializeResponse ⟨0, [], [], some "ok", true⟩).status = 200
    ∧ (serializeResponse ⟨0, [], [], none, false⟩).status = 204
    ∧ (serializeResponse ⟨301, [], [], none, true⟩).status = 301 := by
  refine ⟨?_, ?_, ?_⟩
  · have h := (c8_status_defaults ⟨0, [], [], some "ok", true⟩).1 rfl
    simpa [bodyTruthy] using h
  · have h := (c8_status_defaults ⟨0, [], [], none, false⟩).1 rfl
    simpa [bodyTruthy] using h
  · exact (c8_status_defaults ⟨301, [], [], none, true⟩).2 (by decide)

/-- C9: once the response is marked ended partway down either chain, the
remaining handlers of that chain contribute nothing: running the whole
chain equals running only the part up to the point where the response
ended, so no later callback (or check) executes — for the
request-handler chain and the error-handler chain alike. -/
theorem c9_ended_short_circuits (pre post : List RequestHandler) (s : LoopState)
    (ep1 : List ErrorMiddleware) (eq2 : List ErrorMiddleware) (err : EError)
    (req : ERequest) (res : EResponse)
    (hs0 : s.err = none)
    (h1 : (runLoop pre s).err = none)
    (h2 : (runLoop pre s).res.ended = true)
    (h3 : (runErrorHandlers ep1 err req res).2.2 = none)
    (h4 : (runErrorHandlers ep1 err req res).2.1.ended = true) :
    runLoop (pre ++ post) s = runLoop pre s
    ∧ runErrorHandlers (ep1 ++ eq2) err req res = runErrorHandlers ep1 err req res := by
  constructor
  · rw [runLoop_append pre post s hs0, if_pos h1, runLoop_ended post _ h2]
  · rw [runErrorHandlers_append]
    rcases hr : runErrorHandlers ep1 err req res with ⟨req', rest⟩
    rcases rest with ⟨res', e?⟩
    rw [hr] at h3 h4
    simp only at h3 h4
    subst h3
    simpa using runErrorHandlers_ended eq2 err req' res' h4

/-- C9 witness: a handler that ends the response with a 200 suppresses
a later status-mutating handler, and likewise on the error chain. -/
theorem c9_ended_short_circuits_witness :
    runLoop [hEnd200, hMark999] ⟨sampleReq, EResponse.init, [], none, none⟩
      = runLoop [hEnd200] ⟨sampleReq, EResponse.init, [], none, none⟩
    ∧ runErrorHandlers [eEnd500, eMark999] EError.notFound sampleReq EResponse.init
      = runErrorHandlers [eEnd500] EError.notFound sampleReq EResponse.init := by
  have h := c9_ended_short_circuits [hEnd200] [hMark999]
    ⟨sampleReq, EResponse.init, [], none, none⟩ [eEnd500] [eMark999] EError.notFound
    sampleReq EResponse.init rfl rfl rfl rfl rfl
  exact h

/-- C1: in a dispatch whose request-handler chain runs to completion
(no callback throws, no handler ends the response) and in which some
handler's check reported a method mismatch, the chain fails with a
MethodNotAllowed condition carrying the accumulated allowed methods and
never with NotFound; the default error handler then yields 405 with the
Allow header under auto405, else 404.  The well-formedness hypothesis is
the spec's RouteEntry invariant: a mismatch always carries a non-empty
methods list. -/
theorem c1_mismatch_over_notfound (hs : List RequestHandler) (req : ERequest)
    (res : EResponse) (pre : List RequestHandler) (a : RequestHandler)
    (post : List RequestHandler)
    (hsplit : hs = pre ++ a :: post)
    (hWF : ∀ h ∈ hs, ∀ q ms, (h.check q).1 = CheckResult.methods ms → ms ≠ [])
    (hpreErr : (runLoop pre ⟨req, res, [], none, none⟩).err = none)
    (hpreEnd : (runLoop pre ⟨req, res, [], none, none⟩).res.ended = false)
    (hmm : ∃ ms req', a.check (runLoop pre ⟨req, res, [], none, none⟩).req
      = (CheckResult.methods ms, req'))
    (hfinErr : (runLoop hs ⟨req, res, [], none, none⟩).err = none)
    (hfinEnd : (runLoop hs ⟨req, res, [], none, none⟩).res.ended = false) :
    (runRequestHandlers hs req res).err
      = some (EError.methodNotAllowed (runLoop hs ⟨req, res, [], none, none⟩).allowedMethods)
    ∧ (runLoop hs ⟨req, res, [], none, none⟩).allowedMethods ≠ []
    ∧ (runRequestHandlers hs req res).err ≠ some EError.notFound
    ∧ (∀ (q : ERequest) (c : EResponse),
        (defaultErrorHandler true
          (EError.methodNotAllowed (runLoop hs ⟨req, res, [], none, none⟩).allowedMethods)
          q c).2.1.status = 405
        ∧ hget (defaultErrorHandler true
            (EError.methodNotAllowed (runLoop hs ⟨req, res, [], none, none⟩).allowedMethods)
            q c).2.1.headers "Allow"
          = some (EError.allow
              (EError.methodNotAllowed (runLoop hs ⟨req, res, [], none, none⟩).allowedMethods)))
    ∧ (∀ (q : ERequest) (c : EResponse),
        (defaultErrorHandler false
          (EError.methodNotAllowed (runLoop hs ⟨req, res, [], none, none⟩).allowedMethods)
          q c).2.1.status = 404) := by
  obtain ⟨ms, req', hck⟩ := hmm
  have hamem : a ∈ hs := by
    rw [hsplit]
    exact List.mem_append_right pre (List.mem_cons_self a post)
  have hms : ms ≠ [] := hWF a hamem _ ms (by rw [hck])
  have hlen : ms.length ≠ 0 := by simpa [List.length_eq_zero] using hms
  have hfin : runLoop hs ⟨req, res, [], none, none⟩
      = runLoop (a :: post) (runLoop pre ⟨req, res, [], none, none⟩) := by
    rw [hsplit, runLoop_append pre (a :: post) _ rfl, if_pos hpreErr]
  have haccne : (runLoop hs ⟨req, res, [], none, none⟩).allowedMethods ≠ [] := by
    rw [hfin]
    simp only [runLoop, hpreEnd, Bool.false_eq_true, if_false, hck, if_pos hlen]
    exact runLoop_acc_ne_nil post _ (by simp)
  have hlenacc : (runLoop hs ⟨req, res, [], none, none⟩).allowedMethods.length ≠ 0 := by
    simpa [List.length_eq_zero] using haccne
  have herr : (runRequestHandlers hs req res).err
      = some (EError.methodNotAllowed
          (runLoop hs ⟨req, res, [], none, none⟩).allowedMethods) := by
    simp only [runRequestHandlers, hfinErr, if_pos hlenacc]
  refine ⟨herr, haccne, ?_, ?_, ?_⟩
  · rw [herr]
    simp
  · intro q c
    refine ⟨rfl, ?_⟩
    simp only [defaultErrorHandler, Bool.not_true, Bool.false_eq_true, if_false,
      EResponse.sendStatus, EResponse.headersSet]
    exact hget_hset c.headers "Allow" _
  · intro q c
    rfl

/-- C1 witness: a single always-mismatching GET-only route fails the
chain with MethodNotAllowed carrying that route's methods. -/
theorem c1_mismatch_over_notfound_witness :
    (runRequestHandlers [hMismatchPUT] sampleReq EResponse.init).err
      = some (EError.methodNotAllowed
          (runLoop [hMismatchPUT] ⟨sampleReq, EResponse.init, [], none, none⟩).allowedMethods)
    ∧ (runRequestHandlers [hMismatchPUT] sampleReq EResponse.init).err
      ≠ some EError.notFound := by
  have h := c1_mismatch_over_notfound [hMismatchPUT] sampleReq EResponse.init
    [] hMismatchPUT [] rfl
    (by
      intro h hmem q ms hck
      simp only [List.mem_singleton] at hmem
      subst hmem
      simp only [hMismatchPUT] at hck
      cases hck
      decide)
    rfl rfl ⟨["PUT"], sampleReq, rfl⟩ rfl rfl
  exact ⟨h.1, h.2.2.1⟩

/-- C2 (amended: the failure condition is exactly the source's test on
the last evaluated check result; a handler may well have matched earlier
in the chain, so "some handler matched" does not preclude NotFound —
see the counterexample): when no callback throws, the request-handler
chain fails with NotFound exactly when no method mismatch was
accumulated and the last evaluated check result is 404. -/
theorem c2_notfound_condition (hs : List RequestHandler) (req : ERequest)
    (res : EResponse)
    (hok : (runLoop hs ⟨req, res, [], none, none⟩).err = none) :
    (runRequestHandlers hs req res).err = some EError.notFound ↔
      ((runLoop hs ⟨req, res, [], none, none⟩).allowedMethods = []
        ∧ (runLoop hs ⟨req, res, [], none, none⟩).checkResult
            = some CheckResult.notFound) := by
  simp only [runRequestHandlers, hok]
  by_cases ha : (runLoop hs ⟨req, res, [], none, none⟩).allowedMethods.length ≠ 0
  · rw [if_pos ha]
    have : (runLoop hs ⟨req, res, [], none, none⟩).allowedMethods ≠ [] := by
      simpa [List.length_eq_zero] using ha
    simp [this]
  · rw [if_neg ha]
    have ha' : (runLoop hs ⟨req, res, [], none, none⟩).allowedMethods = [] := by
      simpa [List.length_eq_zero] using ha
    by_cases hc : (runLoop hs ⟨req, res, [], none, none⟩).checkResult
        = some CheckResult.notFound
    · rw [if_pos hc]
      simp [ha', hc]
    · rw [if_neg hc]
      simp [hok, ha', hc]

/-- C2 counterexample: a handler whose check returns Matched runs first
(without ending the response), a later handler's check returns 404, and
the chain still fails with NotFound — refuting "for every dispatch where
some handler's check returned Matched, the chain does not fail with
NotFound". -/
theorem c2_counterexample :
    (hMatchNoEnd.check sampleReq).1 = CheckResult.matched
    ∧ (runRequestHandlers [hMatchNoEnd, hNotFoundH] sampleReq EResponse.init).err
      = some EError.notFound := ⟨rfl, rfl⟩

/-- C2 witness: a chain consisting of one 404-reporting handler fails
with NotFound, matching the amended condition. -/
theorem c2_notfound_condition_witness :
    ((runRequestHandlers [hNotFoundH] sampleReq EResponse.init).err
        = some EError.notFound ↔
      ((runLoop [hNotFoundH] ⟨sampleReq, EResponse.init, [], none, none⟩).allowedMethods = []
        ∧ (runLoop [hNotFoundH] ⟨sampleReq, EResponse.init, [], none, none⟩).checkResult
            = some CheckResult.notFound)) :=
  c2_notfound_condition [hNotFoundH] sampleReq EResponse.init rfl

/-- C3 (amended: a mismatching check does not invoke the callback and
accumulates the allowed methods, but the accumulated collection causes a
MethodNotAllowed failure in every dispatch in which it ends up non-empty
and no callback threw — regardless of whether some handler matched; see
the counterexample). -/
theorem c3_mismatch_accumulation :
    (∀ (a : RequestHandler) (rest : List RequestHandler) (s : LoopState)
        (ms : List String) (req' : ERequest),
      s.res.ended = false → a.check s.req = (CheckResult.methods ms, req') → ms ≠ [] →
      runLoop (a :: rest) s =
        runLoop rest
          { s with
            req := req'
            allowedMethods := s.allowedMethods ++ [ms]
            checkResult := some (CheckResult.methods ms) })
    ∧ (∀ (hs : List RequestHandler) (req : ERequest) (res : EResponse),
        (runLoop hs ⟨req, res, [], none, none⟩).err = none →
        (runLoop hs ⟨req, res, [], none, none⟩).allowedMethods ≠ [] →
        (runRequestHandlers hs req res).err
          = some (EError.methodNotAllowed
              (runLoop hs ⟨req, res, [], none, none⟩).allowedMethods)) := by
  constructor
  · intro a rest s ms req' hE hck hms
    have hlen : ms.length ≠ 0 := by simpa [List.length_eq_zero] using hms
    simp only [runLoop, hE, Bool.false_eq_true, if_false, hck, if_pos hlen]
  · intro hs req res hok hacc
    have hlenacc : (runLoop hs ⟨req, res, [], none, none⟩).allowedMethods.length ≠ 0 := by
      simpa [List.length_eq_zero] using hacc
    simp only [runRequestHandlers, hok, if_pos hlenacc]

/-- C3 counterexample: a mismatch is accumulated, a later handler's
check returns Matched and its callback runs without ending the response,
and the accumulated mismatch still causes the MethodNotAllowed failure —
refuting "the accumulated collection is used only in dispatches where no
handler ever matches". -/
theorem c3_counterexample :
    (runRequestHandlers [hMismatchPUT, hMatchNoEnd] sampleReq EResponse.init).err
      = some (EError.methodNotAllowed [["PUT"]])
    ∧ (hMatchNoEnd.check sampleReq).1 = CheckResult.matched := ⟨rfl, rfl⟩

/-- C3 witness: one loop step on a mismatching check accumulates without
invoking the callback, and a chain with a non-empty accumulator fails
with MethodNotAllowed. -/
theorem c3_mismatch_accumulation_witness :
    runLoop [hMismatchPUT, hEnd200] ⟨sampleReq, EResponse.init, [], none, none⟩
      = runLoop [hEnd200]
          ⟨sampleReq, EResponse.init, [["PUT"]], some (CheckResult.methods ["PUT"]), none⟩
    ∧ (runRequestHandlers [hMismatchPUT] sampleReq EResponse.init).err
      = some (EError.methodNotAllowed
          (runLoop [hMismatchPUT] ⟨sampleReq, EResponse.init, [], none, none⟩).allowedMethods) := by
  constructor
  · exact c3_mismatch_accumulation.1 hMismatchPUT [hEnd200]
      ⟨sampleReq, EResponse.init, [], none, none⟩ ["PUT"] sampleReq rfl rfl (by decide)
  · exact c3_mismatch_accumulation.2 [hMismatchPUT] sampleReq EResponse.init rfl (by decide)

/-- C4: the default error handler maps NotFound, and MethodNotAllowed
with auto405 disabled, to a 404 response; MethodNotAllowed with auto405
enabled to a 405 response with the Allow header holding the comma-joined
allowed methods; and any other error to a 500 response with the JSON
body containing the error's message. -/
theorem c4_default_error_handler (auto405 : Bool) (err : EError) (req : ERequest)
    (res : EResponse) :
    (err = EError.notFound →
      (defaultErrorHandler auto405 err req res).2.1.status = 404)
    ∧ (∀ ams, err = EError.methodNotAllowed ams → auto405 = false →
      (defaultErrorHandler auto405 err req res).2.1.status = 404)
    ∧ (∀ ams, err = EError.methodNotAllowed ams → auto405 = true →
      (defaultErrorHandler auto405 err req res).2.1.status = 405
      ∧ hget (defaultErrorHandler auto405 err req res).2.1.headers "Allow"
          = some (EError.allow (EError.methodNotAllowed ams)))
    ∧ (∀ msg, err = EError.handlerError msg →
      (defaultErrorHandler auto405 err req res).2.1.status = 500
      ∧ (defaultErrorHandler auto405 err req res).2.1.body = some (errorJson msg)
      ∧ hget (defaultErrorHandler auto405 err req res).2.1.headers "Content-Type"
          = some "application/json") := by
  refine ⟨?_, ?_, ?_, ?_⟩
  · rintro rfl
    rfl
  · rintro ams rfl rfl
    rfl
  · rintro ams rfl rfl
    refine ⟨rfl, ?_⟩
    simp only [defaultErrorHandler, Bool.not_true, Bool.false_eq_true, if_false,
      EResponse.sendStatus, EResponse.headersSet]
    exact hget_hset res.headers "Allow" _
  · rintro msg rfl
    refine ⟨rfl, rfl, ?_⟩
    simp only [defaultErrorHandler, EResponse.json, EResponse.withStatus,
      EResponse.headersSet]
    exact hget_hset res.headers "Content-Type" _

/-- C4 witness: the four branches evaluated at concrete errors. -/
theorem c4_default_error_handler_witness :
    (defaultErrorHandler true EError.notFound sampleReq EResponse.init).2.1.status = 404
    ∧ (defaultErrorHandler false (EError.methodNotAllowed [["GET"]]) sampleReq
        EResponse.init).2.1.status = 404
    ∧ (defaultErrorHandler true (EError.methodNotAllowed [["GET"], ["PUT", "POST"]])
        sampleReq EResponse.init).2.1.status = 405
    ∧ hget (defaultErrorHandler true (EError.methodNotAllowed [["GET"], ["PUT", "POST"]])
        sampleReq EResponse.init).2.1.headers "Allow" = some "GET,PUT,POST"
    ∧ (defaultErrorHandler false (EError.handlerError "boom") sampleReq
        EResponse.init).2.1.status = 500
    ∧ (defaultErrorHandler false (EError.handlerError "boom") sampleReq
        EResponse.init).2.1.body = some "\x7b\"error\":\"boom\"\x7d" := by
  refine ⟨?_, ?_, ?_, ?_, ?_, ?_⟩
  · exact (c4_default_error_handler true EError.notFound sampleReq EResponse.init).1 rfl
  · exact (c4_default_error_handler false (EError.methodNotAllowed [["GET"]]) sampleReq
      EResponse.init).2.1 [["GET"]] rfl rfl
  · exact ((c4_default_error_handler true (EError.methodNotAllowed [["GET"], ["PUT", "POST"]])
      sampleReq EResponse.init).2.2.1 [["GET"], ["PUT", "POST"]] rfl rfl).1
  · have h := ((c4_default_error_handler true (EError.methodNotAllowed [["GET"], ["PUT", "POST"]])
      sampleReq EResponse.init).2.2.1 [["GET"], ["PUT", "POST"]] rfl rfl).2
    rw [h]
    decide
  · exact ((c4_default_error_handler false (EError.handlerError "boom") sampleReq
      EResponse.init).2.2.2 "boom" rfl).1
  · have h := ((c4_default_error_handler false (EError.handlerError "boom") sampleReq
      EResponse.init).2.2.2 "boom" rfl).2.1
    rw [h]
    decide

/-- The source's notion of the pathname matching a pattern: the compiled
matcher succeeds and the matched path text is JS-truthy (non-empty). -/
def pathTruthy (matchPath : String → String → Option (String × List (String × String)))
    (pattern pathname : String) : Prop :=
  ∃ p ps, matchPath pattern pathname = some (p, ps) ∧ p ≠ ""

/-- C5: for a non-wildcard pattern, the routeMatcher predicate reports
404 whenever the pathname does not match, regardless of the method;
reports a method mismatch (carrying exactly the route's methods) only
when the pathname matched and the method is not allowed; and reports a
match when both path and method match. -/
theorem c5_route_matcher (cfg : EConfig)
    (matchPath : String → String → Option (String × List (String × String)))
    (methods : List String) (pattern : String) (req : ERequest)
    (h1 : pattern ≠ "*") (h2 : pattern ≠ "(.*)") :
    (¬ pathTruthy matchPath pattern req.pathname →
      (routeMatcher cfg matchPath methods pattern req).1 = CheckResult.notFound)
    ∧ (∀ ms, (routeMatcher cfg matchPath methods pattern req).1 = CheckResult.methods ms →
        pathTruthy matchPath pattern req.pathname ∧ ms = methods
          ∧ methodAllowedFor methods req.method = false)
    ∧ (pathTruthy matchPath pattern req.pathname →
        methodAllowedFor methods req.method = true →
        (routeMatcher cfg matchPath methods pattern req).1 = CheckResult.matched) := by
  have hw : ¬ (pattern = "*" ∨ pattern = "(.*)") := by
    rintro (h | h)
    · exact h1 h
    · exact h2 h
  simp only [routeMatcher, if_neg hw]
  rcases hm : matchPath pattern req.pathname with _ | ⟨p, ps⟩
  · refine ⟨fun _ => rfl, ?_, ?_⟩
    · intro ms hc
      cases hc
    · rintro ⟨p, ps, hmp, -⟩ _
      rw [hm] at hmp
      cases hmp
  · by_cases hp : p = ""
    · subst hp
      dsimp only
      rw [if_neg (not_not_intro rfl)]
      refine ⟨fun _ => rfl, ?_, ?_⟩
      · intro ms hc
        cases hc
      · rintro ⟨p', ps', hmp, hne⟩ _
        rw [hm] at hmp
        cases hmp
        exact absurd rfl hne
    · have hpt : pathTruthy matchPath pattern req.pathname := ⟨p, ps, hm, hp⟩
      dsimp only
      rw [if_pos hp]
      by_cases hma : methodAllowedFor methods req.method = true
      · rw [if_pos hma]
        refine ⟨fun hnp => absurd hpt hnp, ?_, fun _ _ => rfl⟩
        intro ms hc
        cases hc
      · rw [if_neg hma]
        have hmaf : methodAllowedFor methods req.method = false := by
          simpa using hma
        refine ⟨fun hnp => absurd hpt hnp, ?_, ?_⟩
        · intro ms hc
          cases hc
          exact ⟨hpt, rfl, hmaf⟩
        · intro _ hcontra
          exact absurd hcontra hma

/-- A concrete stand-in for a compiled path-to-regexp matcher, matching
the route of the spec's test scenario. -/
def sampleMatchPath : String → String → Option (String × List (String × String)) :=
  fun pattern pathname =>
    if pattern = "/items/:id" ∧ pathname = "/items/42" then
      some ("/items/42", [("id", "42")])
    else none

/-- C5 witness: the matched, mismatch-free and unmatched cases at
concrete inputs. -/
theorem c5_route_matcher_witness :
    pathTruthy sampleMatchPath "/items/:id" "/items/42"
    ∧ (routeMatcher defaultConfig sampleMatchPath ["GET"] "/items/:id" sampleReq).1
        = CheckResult.matched
    ∧ (routeMatcher defaultConfig sampleMatchPath ["GET"] "/items/:id"
        ⟨"PUT", "/nope", [], []⟩).1 = CheckResult.notFound := by
  have hpt : pathTruthy sampleMatchPath "/items/:id" "/items/42" :=
    ⟨"/items/42", [("id", "42")], by decide, by decide⟩
  refine ⟨hpt, ?_, ?_⟩
  · exact (c5_route_matcher defaultConfig sampleMatchPath ["GET"] "/items/:id" sampleReq
      (by decide) (by decide)).2.2 hpt (by decide)
  · apply (c5_route_matcher defaultConfig sampleMatchPath ["GET"] "/items/:id"
      ⟨"PUT", "/nope", [], []⟩ (by decide) (by decide)).1
    rintro ⟨p, ps, hmp, -⟩
    rw [show sampleMatchPath "/items/:id" "/nope" = none from by decide] at hmp
    cases hmp

/-- C6 (amended: the allow-origin header receives the lowercased Origin
header value — the value matched after case normalization — rather than
the verbatim request or trusted-list entry; see the counterexample):
with a trusted list that is not the single wildcard entry, a preflight
is authorized only if the Origin header is present, non-empty after
lowercasing, and case-insensitively equal to some trusted entry; then
the status is 200 and access-control-allow-origin holds the lowercased
Origin value; otherwise (missing Origin, no case-insensitive match —
including an empty trusted list — or empty value) the status is 403. -/
theorem c6_preflight (opts : AutoCorsPreflightOptions) (req : ERequest)
    (res : EResponse) (hw : opts.trustedOrigins ≠ ["*"]) :
    (∀ o, hget req.headers "origin" = some o → lowerStr o ≠ "" →
      opts.trustedOrigins.any (fun t => lowerStr t == lowerStr o) = true →
      ((preflightHandler opts req res).2.1.status = 200
        ∧ hget (preflightHandler opts req res).2.1.headers "access-control-allow-origin"
            = some (lowerStr o)))
    ∧ (hget req.headers "origin" = none →
        (preflightHandler opts req res).2.1.status = 403)
    ∧ (∀ o, hget req.headers "origin" = some o →
        opts.trustedOrigins.any (fun t => lowerStr t == lowerStr o) = false →
        (preflightHandler opts req res).2.1.status = 403)
    ∧ (∀ o, hget req.headers "origin" = some o → lowerStr o = "" →
        (preflightHandler opts req res).2.1.status = 403) := by
  have hnw : ¬ (opts.trustedOrigins.length = 1 ∧ opts.trustedOrigins.head? = some "*") := by
    rintro ⟨hl, hh⟩
    apply hw
    rcases hO : opts.trustedOrigins with _ | ⟨x, rest⟩
    · rw [hO] at hl
      cases hl
    · rw [hO] at hl hh
      rcases rest with _ | ⟨y, t⟩
      · simp only [List.head?] at hh
        cases hh
        rfl
      · simp at hl
  by_cases h0 : opts.trustedOrigins.length = 0
  · have hnil : opts.trustedOrigins = [] := List.length_eq_zero.mp h0
    refine ⟨?_, ?_, ?_, ?_⟩
    · intro o ho hne hany
      rw [hnil] at hany
      cases hany
    · intro ho
      simp only [preflightHandler, if_pos h0]
      rfl
    · intro o ho hany
      simp only [preflightHandler, if_pos h0]
      rfl
    · intro o ho hne
      simp only [preflightHandler, if_pos h0]
      rfl
  · refine ⟨?_, ?_, ?_, ?_⟩
    · intro o ho hne hany
      simp only [preflightHandler, if_neg h0, if_neg hnw, ho, hany, if_true, if_neg hne]
      exact ⟨rfl, hget_hset _ _ _⟩
    · intro ho
      simp only [preflightHandler, if_neg h0, if_neg hnw, ho]
      rfl
    · intro o ho hany
      simp only [preflightHandler, if_neg h0, if_neg hnw, ho, hany, Bool.false_eq_true,
        if_false]
      rfl
    · intro o ho hne
      cases hany : opts.trustedOrigins.any (fun t => lowerStr t == lowerStr o) with
      | true =>
        simp only [preflightHandler, if_neg h0, if_neg hnw, ho, hany, if_true]
        rw [if_pos hne]
        rfl
      | false =>
        simp only [preflightHandler, if_neg h0, if_neg hnw, ho, hany, Bool.false_eq_true,
          if_false]
        rfl

/-- C6 counterexample: with trusted entry "HTTPS://A.COM" and request
Origin "https://A.com", the preflight authorizes (200) and sets the
allow-origin header to "https://a.com" — the lowercased Origin value,
which is neither the trusted-list entry nor the request's Origin header
as sent, refuting "set to the exact matched origin value". -/
theorem c6_counterexample :
    (preflightHandler ⟨["HTTPS://A.COM"]⟩
        ⟨"OPTIONS", "/", [("origin", "https://A.com")], []⟩
        EResponse.init).2.1.status = 200
    ∧ hget (preflightHandler ⟨["HTTPS://A.COM"]⟩
        ⟨"OPTIONS", "/", [("origin", "https://A.com")], []⟩
        EResponse.init).2.1.headers "access-control-allow-origin" = some "https://a.com"
    ∧ "https://a.com" ≠ "HTTPS://A.COM"
    ∧ "https://a.com" ≠ "https://A.com" := by
  exact ⟨by decide, by decide, by decide, by decide⟩

/-- C6 witness: the spec's own test vector — trusted "https://a.com"
with Origin "https://a.com" gives 200 with that allow-origin value, and
Origin "https://b.com" gives 403. -/
theorem c6_preflight_witness :
    ((preflightHandler ⟨["https://a.com"]⟩
        ⟨"OPTIONS", "/", [("origin", "https://a.com")], []⟩
        EResponse.init).2.1.status = 200
      ∧ hget (preflightHandler ⟨["https://a.com"]⟩
          ⟨"OPTIONS", "/", [("origin", "https://a.com")], []⟩
          EResponse.init).2.1.headers "access-control-allow-origin"
        = some "https://a.com")
    ∧ (preflightHandler ⟨["https://a.com"]⟩
        ⟨"OPTIONS", "/", [("origin", "https://b.com")], []⟩
        EResponse.init).2.1.status = 403 := by
  constructor
  · have h := (c6_preflight ⟨["https://a.com"]⟩
      ⟨"OPTIONS", "/", [("origin", "https://a.com")], []⟩ EResponse.init
      (by decide)).1 "https://a.com" (by decide) (by decide) (by decide)
    refine ⟨h.1, ?_⟩
    rw [h.2]
    decide
  · exact (c6_preflight ⟨["https://a.com"]⟩
      ⟨"OPTIONS", "/", [("origin", "https://b.com")], []⟩ EResponse.init
      (by decide)).2.2.1 "https://b.com" (by decide) (by decide)

/-- On a failing dispatch, the Router returned by handler is the one
with the default error handler pushed via use. -/
theorem handler_fst_of_fail (r : Router) (q : ERequest)
    (h : (runRequestHandlers r.requestHandlers q EResponse.init).err ≠ none) :
    (r.handler q).1 = r.use (.errCb (defaultErrorHandler r.config.auto405)) := by
  rcases he : (runRequestHandlers r.requestHandlers q EResponse.init).err with _ | e
  · exact absurd he h
  · simp only [Router.handler, he]
    rcases hrun : runErrorHandlers
        (r.use (UseArg.errCb (defaultErrorHandler r.config.auto405))).errorHandlers e
        (runRequestHandlers r.requestHandlers q EResponse.init).req
        (runRequestHandlers r.requestHandlers q EResponse.init).res with ⟨req', res', e?⟩
    cases e? <;> rfl

/-- C10: every failing dispatch pushes one fresh copy of the default
error handler onto the Router's persistent errorHandlers list (through
use, which files the three-argument callback under the error chain), and
nothing removes it: after k failing dispatches the error-handler list is
the user-registered handlers followed by k copies of the default
handler, while requestHandlers and the configuration are untouched. -/
theorem c10_default_handler_accumulation (r : Router) (reqs : List ERequest)
    (hfail : ∀ q ∈ reqs,
      (runRequestHandlers r.requestHandlers q EResponse.init).err ≠ none) :
    (r.dispatchAll reqs).errorHandlers
      = r.errorHandlers ++ List.replicate reqs.length (defaultErrMW r.config.auto405)
    ∧ (r.dispatchAll reqs).requestHandlers = r.requestHandlers
    ∧ (r.dispatchAll reqs).config = r.config := by
  induction reqs generalizing r with
  | nil => simp [Router.dispatchAll]
  | cons q qs ih =>
    have hq := hfail q (List.mem_cons_self q qs)
    have h1 : (r.handler q).1 = r.use (.errCb (defaultErrorHandler r.config.auto405)) :=
      handler_fst_of_fail r q hq
    have hreq : ((r.handler q).1).requestHandlers = r.requestHandlers := by
      rw [h1]
      rfl
    have hcfg : ((r.handler q).1).config = r.config := by
      rw [h1]
      rfl
    have herr : ((r.handler q).1).errorHandlers
        = r.errorHandlers ++ [defaultErrMW r.config.auto405] := by
      rw [h1]
      rfl
    have ihq := ih ((r.handler q).1) (by
      intro q' hq'
      rw [hreq]
      exact hfail q' (List.mem_cons_of_mem q hq'))
    simp only [Router.dispatchAll]
    refine ⟨?_, ?_, ?_⟩
    · rw [ihq.1, hcfg, herr]
      simp [List.replicate_succ, List.append_assoc]
    · rw [ihq.2.1, hreq]
    · rw [ihq.2.2, hcfg]

/-- A Router with one user route whose check always reports 404, no
user error handlers, and the default configuration. -/
def wRouter : Router := ⟨[hNotFoundH], [], defaultConfig⟩

/-- C10 witness: two dispatches that both fail leave exactly two copies
of the default error handler on the Router. -/
theorem c10_default_handler_accumulation_witness :
    (∀ q ∈ [sampleReq, sampleReq],
      (runRequestHandlers wRouter.requestHandlers q EResponse.init).err ≠ none)
    ∧ (wRouter.dispatchAll [sampleReq, sampleReq]).errorHandlers
        = wRouter.errorHandlers
            ++ List.replicate 2 (defaultErrMW wRouter.config.auto405) := by
  have hf : ∀ q ∈ [sampleReq, sampleReq],
      (runRequestHandlers wRouter.requestHandlers q EResponse.init).err ≠ none := by
    intro q hq
    rcases List.mem_cons.mp hq with rfl | hq2
    · decide
    · rcases List.mem_cons.mp hq2 with rfl | h3
      · decide
      · exact absurd h3 (List.not_mem_nil q)
  exact ⟨hf, (c10_default_handler_accumulation wRouter [sampleReq, sampleReq] hf).1⟩

end Expressly

